import Mathlib

/-!
Shallow embedding of the playlist-tidy local-first store
(`src/playlist-tidy/src/store/playlists.ts` and the types module).

JavaScript records (`Record<string, T>`) are modelled as association lists
with distinct keys; `rset` mirrors `{ ...r, [k]: v }` (replace in place when
the key is present, append otherwise), `rerase` mirrors rest-spread removal.
A JavaScript `Track[]` slot may at runtime hold `undefined` (this is exactly
what `moveTrack` produces for an out-of-range index), so track arrays are
modelled as `List (Option Track)` with `none` standing for `undefined`.
Thrown `TypeError`s are modelled with `Except JsErr`.
-/

namespace PlaylistTidy

/-- JavaScript runtime error raised by the store code (reading a property of
`undefined`). -/
inductive JsErr where
  | typeError
  deriving DecidableEq

/-- Association-list model of a JavaScript object used as a string-keyed map. -/
abbrev RecordT (α : Type) := List (String × α)

/-- Property lookup `r[k]`, `undefined` modelled as `none`. -/
def rget? {α : Type} (r : RecordT α) (k : String) : Option α :=
  match r with
  | [] => none
  | (k', v) :: rest => if k' = k then some v else rget? rest k

/-- Spread-update `{ ...r, [k]: v }`: an existing key keeps its position, a
new key is appended. -/
def rset {α : Type} (r : RecordT α) (k : String) (v : α) : RecordT α :=
  match r with
  | [] => [(k, v)]
  | (k', v') :: rest => if k' = k then (k, v) :: rest else (k', v') :: rset rest k v

/-- Rest-spread removal `const { [k]: _, ...rest } = r`. -/
def rerase {α : Type} (r : RecordT α) (k : String) : RecordT α :=
  r.filter (fun p => p.1 ≠ k)

/-- Artwork reference of a track (types module). -/
structure Artwork where
  url : String
  width : Int
  height : Int
  deriving DecidableEq

/-- Attributes of a Track (types module). -/
structure TrackAttributes where
  name : String
  artistName : String
  albumName : String
  durationInMillis : Int
  artwork : Option Artwork := none
  deriving DecidableEq

/-- A track; `type: 'songs'` is a constant literal and is omitted. -/
structure Track where
  id : String
  attributes : TrackAttributes
  deriving DecidableEq

/-- Attributes of a Playlist (types module). -/
structure PlaylistAttributes where
  name : String
  description : Option String := none
  canEdit : Bool
  isPublic : Bool
  dateAdded : String
  lastModifiedDate : String
  deriving DecidableEq

/-- The `tracks` relationship: `{ data: Track[] }`; slots may be `undefined`
at runtime, hence `Option Track`. -/
structure TracksRel where
  data : List (Option Track)
  deriving DecidableEq

/-- The optional `relationships` object of a playlist. -/
structure Relationships where
  tracks : Option TracksRel := none
  deriving DecidableEq

/-- A playlist; `type: 'playlists'` is a constant literal and is omitted. -/
structure Playlist where
  id : String
  attributes : PlaylistAttributes
  relationships : Option Relationships := none
  deriving DecidableEq

/-- Tag of a Mutation (types module: `'add' | 'remove' | 'move' | 'rename' |
'create' | 'delete'`). -/
inductive MutationOp where
  | add | remove | move | rename | create | delete
  deriving DecidableEq

/-- A Mutation value (types module); optional fields are `Option`s. -/
structure Mutation where
  op : MutationOp
  playlistId : String
  trackId : Option String := none
  fromIndex : Option Int := none
  toIndex : Option Int := none
  name : Option String := none
  tracks : Option (List Track) := none
  deriving DecidableEq

/-- A history snapshot (types module): entities, order, timestamp, description. -/
structure Snapshot where
  entities : RecordT Playlist
  order : List String
  timestamp : Int
  description : String
  deriving DecidableEq

/-- The persisted store state (types module `PlaylistState`). -/
structure PlaylistState where
  entities : RecordT Playlist
  order : List String
  selectedId : Option String
  history : List Snapshot
  historyIndex : Int
  isDirty : RecordT Bool
  deriving DecidableEq

/-- The initial store state from `create(...)`. -/
def initialState : PlaylistState :=
  { entities := [], order := [], selectedId := none,
    history := [], historyIndex := -1, isDirty := [] }

/-- JavaScript array indexing `l[i]`: `undefined` (`none`) when out of range
or negative. -/
def jsGetElem {α : Type} (l : List α) (i : Int) : Option α :=
  if i < 0 then none else l[i.toNat]?

/-- JavaScript `l.slice(0, e)`: a negative end counts from the end of the
array, clamped at zero. -/
def jsSlice0 {α : Type} (l : List α) (e : Int) : List α :=
  if e < 0 then l.take ((l.length : Int) + e).toNat else l.take e.toNat

/-- JavaScript `l.splice(start, 1)`: the array with at most one element
removed at the normalized position, together with the removed element
(`none` when nothing was removed). -/
def jsSpliceRemove1 {α : Type} (l : List α) (start : Int) : List α × Option α :=
  let len : Int := l.length
  let actual : Nat := (if start < 0 then max (len + start) 0 else min start len).toNat
  (l.take actual ++ l.drop (actual + 1), l[actual]?)

/-- JavaScript `l.splice(start, 0, x)`: inserts `x` at the normalized
position. -/
def jsSpliceInsert {α : Type} (l : List α) (start : Int) (x : α) : List α :=
  let len : Int := l.length
  let actual : Nat := (if start < 0 then max (len + start) 0 else min start len).toNat
  l.take actual ++ [x] ++ l.drop actual

/-- The expression `playlist.relationships?.tracks?.data || []`. -/
def tracksData (p : Playlist) : List (Option Track) :=
  match p.relationships with
  | none => []
  | some r =>
    match r.tracks with
    | none => []
    | some tr => tr.data

/-- The update `{ ...playlist, relationships: { ...playlist.relationships,
tracks: { data: d } } }`. -/
def setTracksData (p : Playlist) (d : List (Option Track)) : Playlist :=
  { p with relationships := some { tracks := some { data := d } } }

/-- A `Partial<Playlist>` value: each property is either absent or present. -/
structure PartialPlaylist where
  id : Option String := none
  attributes : Option PlaylistAttributes := none
  relationships : Option (Option Relationships) := none
  deriving DecidableEq

/-- Spread merge `{ ...playlist, ...updates }` for a `Partial<Playlist>`. -/
def mergePlaylist (p : Playlist) (u : PartialPlaylist) : Playlist :=
  { id := u.id.getD p.id,
    attributes := u.attributes.getD p.attributes,
    relationships := u.relationships.getD p.relationships }

/-- Store action `selectPlaylist`. -/
def selectPlaylist (id : Option String) (s : PlaylistState) : PlaylistState :=
  { s with selectedId := id }

/-- Store action `createSnapshot(description)`; `now` stands for the
`Date.now()` clock input. -/
def createSnapshot (description : String) (now : Int) (s : PlaylistState) : PlaylistState :=
  let snapshot : Snapshot :=
    { entities := s.entities, order := s.order, timestamp := now, description := description }
  let newHistory := jsSlice0 s.history (s.historyIndex + 1) ++ [snapshot]
  let newHistory2 := if 50 < newHistory.length then newHistory.tail else newHistory
  { s with history := newHistory2, historyIndex := (newHistory2.length : Int) - 1 }

/-- Store action `addPlaylist(playlist)`: unconditional insert into
`entities`, unconditional append to `order`, dirty set to `false`, then a
snapshot is taken. -/
def addPlaylist (p : Playlist) (now : Int) (s : PlaylistState) : PlaylistState :=
  createSnapshot ("Added playlist: " ++ p.attributes.name) now
    { s with entities := rset s.entities p.id p,
             order := s.order ++ [p.id],
             isDirty := rset s.isDirty p.id false }

/-- Store action `updatePlaylist(id, updates)`: no-op when the playlist is
absent, otherwise spread-merge and mark dirty. -/
def updatePlaylist (id : String) (updates : PartialPlaylist) (s : PlaylistState) : PlaylistState :=
  match rget? s.entities id with
  | none => s
  | some pl =>
    { s with entities := rset s.entities id (mergePlaylist pl updates),
             isDirty := rset s.isDirty id true }

/-- Store action `deletePlaylist(id)`, including the trailing snapshot. -/
def deletePlaylist (id : String) (now : Int) (s : PlaylistState) : PlaylistState :=
  createSnapshot "Deleted playlist" now
    { s with entities := rerase s.entities id,
             order := s.order.filter (fun x => x ≠ id),
             selectedId := if s.selectedId = some id then none else s.selectedId,
             isDirty := rerase s.isDirty id }

/-- Store action `addTrackToPlaylist(playlistId, track)`. -/
def addTrackToPlaylist (playlistId : String) (t : Track) (s : PlaylistState) : PlaylistState :=
  match rget? s.entities playlistId with
  | none => s
  | some pl =>
    { s with entities := rset s.entities playlistId (setTracksData pl (tracksData pl ++ [some t])),
             isDirty := rset s.isDirty playlistId true }

/-- The callback run by `tracks.filter(track => track.id !== trackId)`:
evaluating `track.id` on an `undefined` slot throws. -/
def jsFilterTrackIdNe (trackId : String) : List (Option Track) → Except JsErr (List (Option Track))
  | [] => .ok []
  | none :: _ => .error .typeError
  | some t :: rest =>
    (jsFilterTrackIdNe trackId rest).map (fun r => if t.id ≠ trackId then some t :: r else r)

/-- Store action `removeTrackFromPlaylist(playlistId, trackId)`: filters out
EVERY track whose id equals `trackId`, and marks the playlist dirty whenever
it exists. -/
def removeTrackFromPlaylist (playlistId trackId : String) (s : PlaylistState) :
    Except JsErr PlaylistState :=
  match rget? s.entities playlistId with
  | none => .ok s
  | some pl =>
    (jsFilterTrackIdNe trackId (tracksData pl)).map fun newData =>
      { s with entities := rset s.entities playlistId (setTracksData pl newData),
               isDirty := rset s.isDirty playlistId true }

/-- Store action `moveTrack(playlistId, fromIndex, toIndex)`: two `splice`
calls; when nothing was removed the inserted value is `undefined` (`none`). -/
def moveTrack (playlistId : String) (fromIndex toIndex : Int) (s : PlaylistState) : PlaylistState :=
  match rget? s.entities playlistId with
  | none => s
  | some pl =>
    let removed := jsSpliceRemove1 (tracksData pl) fromIndex
    let newData := jsSpliceInsert removed.1 toIndex removed.2.join
    { s with entities := rset s.entities playlistId (setTracksData pl newData),
             isDirty := rset s.isDirty playlistId true }

/-- One iteration of the `applyMutations` dispatch loop.  JavaScript
truthiness: `if (mutation.trackId)` and `if (mutation.name)` skip the empty
string; `fromIndex !== undefined` only checks presence.  The `rename` case
reads `get().entities[playlistId].attributes` WITHOUT a guard, so a missing
playlist throws a `TypeError`. -/
def applyMutation1 (playlistId : String) (m : Mutation) (s : PlaylistState) :
    Except JsErr PlaylistState :=
  match m.op with
  | .add =>
    match m.tracks with
    | some ts => .ok (ts.foldl (fun st t => addTrackToPlaylist playlistId t st) s)
    | none => .ok s
  | .remove =>
    match m.trackId with
    | some tid => if tid = "" then .ok s else removeTrackFromPlaylist playlistId tid s
    | none => .ok s
  | .move =>
    match m.fromIndex, m.toIndex with
    | some f, some t => .ok (moveTrack playlistId f t s)
    | _, _ => .ok s
  | .rename =>
    match m.name with
    | some n =>
      if n = "" then .ok s
      else
        match rget? s.entities playlistId with
        | none => .error .typeError
        | some pl =>
          .ok (updatePlaylist playlistId { attributes := some { pl.attributes with name := n } } s)
    | none => .ok s
  | .create => .ok s
  | .delete => .ok s

/-- The `mutations.forEach` loop: a thrown error aborts the loop, keeping the
state produced by the mutations already applied. -/
def applyMutList (playlistId : String) : List Mutation → PlaylistState →
    PlaylistState × Option JsErr
  | [], s => (s, none)
  | m :: rest, s =>
    match applyMutation1 playlistId m s with
    | .ok s' => applyMutList playlistId rest s'
    | .error e => (s, some e)

/-- Store action `applyMutations(playlistId, mutations)`: the dispatch loop
followed by one snapshot; a thrown error propagates to the caller and the
snapshot is skipped, while already-applied mutations persist. -/
def applyMutations (playlistId : String) (ms : List Mutation) (now : Int) (s : PlaylistState) :
    PlaylistState × Option JsErr :=
  match applyMutList playlistId ms s with
  | (s', none) =>
    (createSnapshot ("Applied " ++ toString ms.length ++ " mutations") now s', none)
  | (s', some e) => (s', some e)

/-- Store action `undo()`: no-op at cursor zero or below; otherwise restores
the previous snapshot and RESETS the dirty map to empty.  Reading a snapshot
that does not exist would throw. -/
def undo (s : PlaylistState) : Except JsErr PlaylistState :=
  if s.historyIndex ≤ 0 then .ok s
  else
    match jsGetElem s.history (s.historyIndex - 1) with
    | none => .error .typeError
    | some snap =>
      .ok { s with entities := snap.entities, order := snap.order,
                   historyIndex := s.historyIndex - 1, isDirty := [] }

/-- Store action `redo()`: no-op at the end of history; otherwise restores
the next snapshot and resets the dirty map to empty. -/
def redo (s : PlaylistState) : Except JsErr PlaylistState :=
  if (s.history.length : Int) - 1 ≤ s.historyIndex then .ok s
  else
    match jsGetElem s.history (s.historyIndex + 1) with
    | none => .error .typeError
    | some snap =>
      .ok { s with entities := snap.entities, order := snap.order,
                   historyIndex := s.historyIndex + 1, isDirty := [] }

/-- Store query `canUndo()`. -/
def canUndo (s : PlaylistState) : Bool := decide (0 < s.historyIndex)

/-- Store query `canRedo()`. -/
def canRedo (s : PlaylistState) : Bool := decide (s.historyIndex < (s.history.length : Int) - 1)

/-- Outcome of a remote call made by the Sync Coordinator. -/
inductive RemoteErr where
  | failure (detail : String)
  deriving DecidableEq

/-- Store action `syncPlaylist(id)`: the remote `getPlaylist` result is passed
in as data.  On success the playlist is overwritten and marked clean; on
failure the catch block only logs — the state is untouched and the returned
promise still RESOLVES, so the second component (what the caller observes)
is `.ok ()` in both cases. -/
def syncPlaylist (id : String) (remote : Except RemoteErr Playlist) (s : PlaylistState) :
    PlaylistState × Except RemoteErr Unit :=
  match remote with
  | .ok playlist =>
    ({ s with entities := rset s.entities id playlist,
              isDirty := rset s.isDirty id false }, .ok ())
  | .error _ => (s, .ok ())

/-- Store action `revertChanges(id)`: delegates to `syncPlaylist`. -/
def revertChanges (id : String) (remote : Except RemoteErr Playlist) (s : PlaylistState) :
    PlaylistState × Except RemoteErr Unit :=
  syncPlaylist id remote s

/-- States reachable from the initial state by commit (`createSnapshot`),
`undo` and `redo` alone. -/
inductive Reach : PlaylistState → Prop where
  | init : Reach initialState
  | commit (d : String) (now : Int) {s : PlaylistState} :
      Reach s → Reach (createSnapshot d now s)
  | undoStep {s s' : PlaylistState} : Reach s → undo s = .ok s' → Reach s'
  | redoStep {s s' : PlaylistState} : Reach s → redo s = .ok s' → Reach s'

/-- States reachable from the initial state by the snapshot-committing store
operations (each of which ends by taking a snapshot of the new live state). -/
inductive CommitReach : PlaylistState → Prop where
  | init : CommitReach initialState
  | add (p : Playlist) (now : Int) {s : PlaylistState} :
      CommitReach s → CommitReach (addPlaylist p now s)
  | del (id : String) (now : Int) {s : PlaylistState} :
      CommitReach s → CommitReach (deletePlaylist id now s)
  | applied (playlistId : String) (ms : List Mutation) (now : Int) {s s' : PlaylistState} :
      CommitReach s → applyMutations playlistId ms now s = (s', none) → CommitReach s'

/-- History well-formedness: at most 50 snapshots, cursor below the length,
and nonnegative as soon as the history is non-empty. -/
def HistInv (s : PlaylistState) : Prop :=
  s.history.length ≤ 50 ∧ s.historyIndex < (s.history.length : Int) ∧
  (s.history ≠ [] → 0 ≤ s.historyIndex)

/-- The track sequence of a playlist in the store (empty when the playlist is
absent). -/
def tracksOf (s : PlaylistState) (playlistId : String) : List (Option Track) :=
  match rget? s.entities playlistId with
  | none => []
  | some pl => tracksData pl

/-- Whether `tracks.filter(track => track.id !== trackId)` keeps a (defined)
slot. -/
def slotKeeps (trackId : String) (x : Option Track) : Bool :=
  match x with
  | none => true
  | some t => decide (t.id ≠ trackId)

/-- Example track A. -/
def trackA : Track :=
  { id := "tA",
    attributes := { name := "A", artistName := "Ann", albumName := "Alpha",
                    durationInMillis := 1000 } }

/-- Example track B. -/
def trackB : Track :=
  { id := "tB",
    attributes := { name := "B", artistName := "Bob", albumName := "Beta",
                    durationInMillis := 2000 } }

/-- Example playlist attributes. -/
def attrsRock : PlaylistAttributes :=
  { name := "Rock", canEdit := true, isPublic := false,
    dateAdded := "2024-01-01", lastModifiedDate := "2024-01-02" }

/-- Example playlist whose track sequence contains `trackA` twice. -/
def pDup : Playlist :=
  { id := "p1", attributes := attrsRock,
    relationships := some { tracks := some { data := [some trackA, some trackB, some trackA] } } }

/-- Example store state holding `pDup`. -/
def sDup : PlaylistState :=
  { entities := [("p1", pDup)], order := ["p1"], selectedId := none,
    history := [], historyIndex := -1, isDirty := [] }

/-- Example playlist with a single track. -/
def pOne : Playlist :=
  { id := "p1", attributes := attrsRock,
    relationships := some { tracks := some { data := [some trackA] } } }

/-- Example store state holding `pOne`. -/
def sOne : PlaylistState :=
  { entities := [("p1", pOne)], order := ["p1"], selectedId := none,
    history := [], historyIndex := -1, isDirty := [] }

/-- A `rename` mutation naming no missing fields. -/
def renameMut : Mutation := { op := .rename, playlistId := "p1", name := some "New Name" }

/-- A `remove` mutation for `trackA`. -/
def removeMutA : Mutation := { op := .remove, playlistId := "p1", trackId := some "tA" }

/-- One concrete run of `applyMutations`, used to witness determinism. -/
def detRun : PlaylistState × Option JsErr := applyMutations "p1" [] 0 initialState

/-- State after committing `pOne` into the empty store. -/
def sAfterAdd : PlaylistState := addPlaylist pOne 0 initialState

/-- State after additionally applying (and committing) a `remove` batch:
two snapshots, cursor 1, playlist dirty. -/
def sTwoCommits : PlaylistState := (applyMutations "p1" [removeMutA] 1 sAfterAdd).1

/-- State with one snapshot and a dirty edit on top (no second commit). -/
def sDirtyNoCommit : PlaylistState :=
  updatePlaylist "p1" { attributes := some { attrsRock with name := "X" } } sAfterAdd

/-- State with a selection, used for the delete-then-undo scenario. -/
def sSelected : PlaylistState := selectPlaylist (some "p1") sAfterAdd

/-- Result of undoing a `deletePlaylist` on `sSelected`. -/
def sAfterDeleteUndo : PlaylistState :=
  ((undo (deletePlaylist "p1" 1 sSelected)).toOption).getD initialState

/-- Result of undoing `sTwoCommits`. -/
def sUndoTwo : PlaylistState := ((undo sTwoCommits).toOption).getD initialState

theorem jsSlice0_length_le {α : Type} (l : List α) (e : Int) :
    (jsSlice0 l e).length ≤ l.length := by
  unfold jsSlice0
  split <;> (rw [List.length_take]; omega)

theorem jsSlice0_length_eq {α : Type} (l : List α) (e : Int) (h0 : 0 ≤ e)
    (hle : e ≤ (l.length : Int)) : ((jsSlice0 l e).length : Int) = e := by
  unfold jsSlice0
  split
  · exfalso; omega
  · rw [List.length_take]; omega

theorem jsSlice0_all {α : Type} (l : List α) (e : Int) (h : (l.length : Int) ≤ e) :
    jsSlice0 l e = l := by
  unfold jsSlice0
  split
  · exfalso; omega
  · exact List.take_of_length_le (by omega)

theorem last_concat {α : Type} (l : List α) (a : α) :
    (l ++ [a])[(l ++ [a]).length - 1]? = some a := by
  simp only [List.length_append, List.length_cons, List.length_nil, Nat.add_sub_cancel]
  exact List.getElem?_concat_length l a

theorem last_concat_tail {α : Type} (l : List α) (a : α) (h : l ≠ []) :
    ((l ++ [a]).tail)[((l ++ [a]).tail).length - 1]? = some a := by
  rw [List.tail_append_singleton_of_ne_nil h]
  simp only [List.length_append, List.length_cons, List.length_nil, Nat.add_sub_cancel]
  exact List.getElem?_concat_length l.tail a

theorem createSnapshot_entities (d : String) (now : Int) (s : PlaylistState) :
    (createSnapshot d now s).entities = s.entities := rfl

theorem createSnapshot_order (d : String) (now : Int) (s : PlaylistState) :
    (createSnapshot d now s).order = s.order := rfl

theorem createSnapshot_selectedId (d : String) (now : Int) (s : PlaylistState) :
    (createSnapshot d now s).selectedId = s.selectedId := rfl

theorem createSnapshot_isDirty (d : String) (now : Int) (s : PlaylistState) :
    (createSnapshot d now s).isDirty = s.isDirty := rfl

theorem createSnapshot_historyIndex (d : String) (now : Int) (s : PlaylistState) :
    (createSnapshot d now s).historyIndex =
      ((createSnapshot d now s).history.length : Int) - 1 := rfl

theorem createSnapshot_length_pos (d : String) (now : Int) (s : PlaylistState) :
    1 ≤ (createSnapshot d now s).history.length := by
  simp only [createSnapshot]
  split
  case isTrue h =>
    rw [List.length_tail]
    omega
  case isFalse h =>
    simp only [List.length_append, List.length_cons, List.length_nil]
    omega

theorem createSnapshot_length_le (d : String) (now : Int) {s : PlaylistState}
    (h : s.history.length ≤ 50) : (createSnapshot d now s).history.length ≤ 50 := by
  have hs := jsSlice0_length_le s.history (s.historyIndex + 1)
  simp only [createSnapshot]
  split
  case isTrue h' =>
    rw [List.length_tail]
    simp only [List.length_append, List.length_cons, List.length_nil] at *
    omega
  case isFalse h' =>
    simp only [List.length_append, List.length_cons, List.length_nil] at *
    omega

theorem createSnapshot_last (d : String) (now : Int) (s : PlaylistState) :
    (createSnapshot d now s).history[(createSnapshot d now s).history.length - 1]? =
      some { entities := s.entities, order := s.order, timestamp := now, description := d } := by
  simp only [createSnapshot]
  split
  case isTrue h =>
    apply last_concat_tail
    intro hnil
    rw [hnil] at h
    simp at h
  case isFalse h =>
    exact last_concat _ _

theorem histInv_init : HistInv initialState :=
  ⟨by simp [initialState], by simp [initialState], by simp [initialState]⟩

theorem histInv_createSnapshot (d : String) (now : Int) {s : PlaylistState}
    (h : HistInv s) : HistInv (createSnapshot d now s) := by
  obtain ⟨h50, hlt, hpos⟩ := h
  have hpos1 := createSnapshot_length_pos d now s
  refine ⟨createSnapshot_length_le d now h50, ?_, ?_⟩
  · rw [createSnapshot_historyIndex]; omega
  · intro _; rw [createSnapshot_historyIndex]; omega

theorem histInv_undo {s s' : PlaylistState} (h : HistInv s) (hu : undo s = .ok s') :
    HistInv s' := by
  obtain ⟨h50, hlt, hpos⟩ := h
  unfold undo at hu
  split at hu
  case isTrue hguard =>
    injection hu with h'
    subst h'
    exact ⟨h50, hlt, hpos⟩
  case isFalse hguard =>
    cases hjs : jsGetElem s.history (s.historyIndex - 1) with
    | none => rw [hjs] at hu; exact Except.noConfusion hu
    | some snap =>
      rw [hjs] at hu
      injection hu with h'
      subst h'
      refine ⟨h50, ?_, fun _ => ?_⟩ <;> (dsimp only; omega)

theorem histInv_redo {s s' : PlaylistState} (h : HistInv s) (hr : redo s = .ok s') :
    HistInv s' := by
  obtain ⟨h50, hlt, hpos⟩ := h
  unfold redo at hr
  split at hr
  case isTrue hguard =>
    injection hr with h'
    subst h'
    exact ⟨h50, hlt, hpos⟩
  case isFalse hguard =>
    cases hjs : jsGetElem s.history (s.historyIndex + 1) with
    | none => rw [hjs] at hr; exact Except.noConfusion hr
    | some snap =>
      rw [hjs] at hr
      injection hr with h'
      subst h'
      refine ⟨h50, ?_, fun hne => ?_⟩
      · dsimp only; omega
      · have h0 := hpos hne
        dsimp only
        omega

theorem reach_histInv {s : PlaylistState} (h : Reach s) : HistInv s := by
  induction h with
  | init => exact histInv_init
  | commit d now _ ih => exact histInv_createSnapshot d now ih
  | undoStep _ hu ih => exact histInv_undo ih hu
  | redoStep _ hr ih => exact histInv_redo ih hr

theorem rget?_rset {α : Type} (r : RecordT α) (k : String) (v : α) :
    rget? (rset r k v) k = some v := by
  induction r with
  | nil => simp [rset, rget?]
  | cons p rest ih =>
    obtain ⟨k', v'⟩ := p
    by_cases h : k' = k
    · subst h; simp [rset, rget?]
    · simp [rset, rget?, h, ih]

theorem jsFilterTrackIdNe_ok {trackId : String} {l : List (Option Track)}
    (hwf : ∀ x ∈ l, x ≠ none) :
    jsFilterTrackIdNe trackId l = .ok (l.filter (slotKeeps trackId)) := by
  induction l with
  | nil => rfl
  | cons hd tl ih =>
    cases hd with
    | none => exact absurd rfl (hwf none (by simp))
    | some t =>
      have htl : jsFilterTrackIdNe trackId tl = .ok (tl.filter (slotKeeps trackId)) :=
        ih (fun x hx => hwf x (List.mem_cons_of_mem _ hx))
      by_cases h : t.id = trackId
      · simp [jsFilterTrackIdNe, htl, Except.map, List.filter_cons, slotKeeps, h]
      · simp [jsFilterTrackIdNe, htl, Except.map, List.filter_cons, slotKeeps, h]

theorem liveLast_createSnapshot (d : String) (now : Int) (s : PlaylistState) :
    (createSnapshot d now s).historyIndex =
      ((createSnapshot d now s).history.length : Int) - 1 ∧
    ((createSnapshot d now s).history ≠ [] →
      ∃ snap, (createSnapshot d now s).history[(createSnapshot d now s).history.length - 1]? =
          some snap ∧
        snap.entities = (createSnapshot d now s).entities ∧
        snap.order = (createSnapshot d now s).order) :=
  ⟨createSnapshot_historyIndex d now s, fun _ => ⟨_, createSnapshot_last d now s, rfl, rfl⟩⟩

theorem commitReach_live {s : PlaylistState} (h : CommitReach s) :
    s.historyIndex = (s.history.length : Int) - 1 ∧
    (s.history ≠ [] → ∃ snap, s.history[s.history.length - 1]? = some snap ∧
      snap.entities = s.entities ∧ snap.order = s.order) := by
  induction h with
  | init => exact ⟨by simp [initialState], fun hne => absurd rfl hne⟩
  | add p now _ _ =>
    unfold addPlaylist
    exact liveLast_createSnapshot _ _ _
  | del id now _ _ =>
    unfold deletePlaylist
    exact liveLast_createSnapshot _ _ _
  | applied playlistId ms now _ heq _ =>
    unfold applyMutations at heq
    cases hml : applyMutList playlistId ms _ with
    | mk smid err =>
      rw [hml] at heq
      cases err with
      | none =>
        dsimp only at heq
        rw [Prod.mk.injEq] at heq
        rw [← heq.1]
        exact liveLast_createSnapshot _ _ _
      | some e =>
        dsimp only at heq
        rw [Prod.mk.injEq] at heq
        exact absurd heq.2 (by simp)

/-- C5 (amended): in every state reached by a sequence of committing store
operations with undo enabled, `undo(); redo()` restores the entities, the
order, the history, the cursor and the selection present immediately before
the `undo()`, but RESETS the per-playlist dirty map to empty rather than
restoring it. -/
theorem undo_redo_restores_except_dirty {s : PlaylistState} (h : CommitReach s)
    (hc : 0 < s.historyIndex) :
    ∃ s₁, undo s = .ok s₁ ∧ redo s₁ = .ok { s with isDirty := [] } := by
  obtain ⟨hidx, hlast⟩ := commitReach_live h
  have hne : s.history ≠ [] := by
    intro hnil
    rw [hnil] at hidx
    simp at hidx
    omega
  obtain ⟨snap, hsnap, hse, hso⟩ := hlast hne
  have hlen2 : 2 ≤ s.history.length := by omega
  have hlt1 : (s.historyIndex - 1).toNat < s.history.length := by omega
  refine ⟨{ s with entities := (s.history[(s.historyIndex - 1).toNat]).entities,
                   order := (s.history[(s.historyIndex - 1).toNat]).order,
                   historyIndex := s.historyIndex - 1, isDirty := [] }, ?_, ?_⟩
  · unfold undo
    rw [if_neg (by omega)]
    unfold jsGetElem
    rw [if_neg (by omega), List.getElem?_eq_getElem hlt1]
  · unfold redo
    dsimp only
    rw [if_neg (by omega)]
    have h1 : s.historyIndex - 1 + 1 = s.historyIndex := by omega
    rw [h1]
    have hjs : jsGetElem s.history s.historyIndex = some snap := by
      unfold jsGetElem
      rw [if_neg (by omega)]
      have htn : s.historyIndex.toNat = s.history.length - 1 := by omega
      rw [htn]
      exact hsnap
    rw [hjs]
    dsimp only
    rw [hse, hso]

/-- C5 counterexample: `sTwoCommits` is reached by two committing operations
(an `addPlaylist` and an `applyMutations` batch) and has undo enabled; the
`undo(); redo()` round trip restores the entities but yields an EMPTY dirty
map, whereas the dirty map immediately before the `undo()` marked `p1`
dirty — so the full store state, dirty flags included, is not restored. -/
theorem undo_redo_dirty_cex :
    CommitReach sTwoCommits ∧ 0 < sTwoCommits.historyIndex ∧
    ((undo sTwoCommits).bind redo).map PlaylistState.entities =
      .ok sTwoCommits.entities ∧
    ((undo sTwoCommits).bind redo).map PlaylistState.isDirty = .ok [] ∧
    sTwoCommits.isDirty = [("p1", true)] ∧
    ([] : RecordT Bool) ≠ [("p1", true)] := by
  refine ⟨?_, by decide, rfl, rfl, by decide, by decide⟩
  exact CommitReach.applied "p1" [removeMutA] 1
    (CommitReach.add pOne 0 CommitReach.init) (by decide)

/-- C5 witness: the amended round-trip theorem applied to `sTwoCommits`. -/
theorem undo_redo_restores_except_dirty_witness :
    ∃ s₁, undo sTwoCommits = .ok s₁ ∧
      redo s₁ = .ok { sTwoCommits with isDirty := [] } :=
  undo_redo_restores_except_dirty
    (CommitReach.applied "p1" [removeMutA] 1
      (CommitReach.add pOne 0 CommitReach.init) (by decide))
    (by decide)

/-- C6: in every state reachable by commit/undo/redo from the initial state,
the cursor satisfies `0 <= cursor < snapshots.length` whenever the snapshot
list is non-empty, and the list never exceeds 50 snapshots.  A commit taken
while the cursor is not at the end truncates the history to `cursor + 2`
snapshots (discarding everything after the cursor before appending) and
leaves redo disabled; a commit taken at capacity with the cursor at the end
drops the oldest snapshot and puts the cursor at the last retained
position. -/
theorem history_invariants (s : PlaylistState) (h : Reach s) :
    (s.history ≠ [] → 0 ≤ s.historyIndex ∧ s.historyIndex < (s.history.length : Int)) ∧
    s.history.length ≤ 50 ∧
    (∀ d now, canRedo (createSnapshot d now s) = false) ∧
    (∀ d now, (createSnapshot d now s).history.length ≤ 50) ∧
    (s.history ≠ [] → s.historyIndex < (s.history.length : Int) - 1 →
      ∀ d now, ((createSnapshot d now s).history.length : Int) = s.historyIndex + 2) ∧
    (s.history.length = 50 → s.historyIndex = 49 → ∀ d now,
      (createSnapshot d now s).history =
        s.history.tail ++ [{ entities := s.entities, order := s.order,
                             timestamp := now, description := d }] ∧
      (createSnapshot d now s).historyIndex = 49) := by
  obtain ⟨h50, hlt, hpos⟩ := reach_histInv h
  refine ⟨fun hne => ⟨hpos hne, hlt⟩, h50, ?_, ?_, ?_, ?_⟩
  · intro d now
    simp only [canRedo, createSnapshot_historyIndex, decide_eq_false_iff_not]
    omega
  · intro d now
    exact createSnapshot_length_le d now h50
  · intro hne hidx d now
    have h0 : (0 : Int) ≤ s.historyIndex + 1 := by have := hpos hne; omega
    have hsl : ((jsSlice0 s.history (s.historyIndex + 1)).length : Int) = s.historyIndex + 1 :=
      jsSlice0_length_eq _ _ h0 (by omega)
    simp only [createSnapshot]
    split
    case isTrue h' =>
      exfalso
      simp only [List.length_append, List.length_cons, List.length_nil] at h'
      omega
    case isFalse h' =>
      simp only [List.length_append, List.length_cons, List.length_nil]
      push_cast
      omega
  · intro hlen hidx d now
    have hall : jsSlice0 s.history (s.historyIndex + 1) = s.history :=
      jsSlice0_all _ _ (by omega)
    have hne : s.history ≠ [] := by
      intro hnil; rw [hnil] at hlen; simp at hlen
    have hhist : (createSnapshot d now s).history =
        s.history.tail ++ [{ entities := s.entities, order := s.order,
                             timestamp := now, description := d }] := by
      simp only [createSnapshot, hall]
      split
      case isTrue h' => exact List.tail_append_singleton_of_ne_nil hne
      case isFalse h' =>
        exfalso
        simp only [List.length_append, List.length_cons, List.length_nil] at h'
        omega
    refine ⟨hhist, ?_⟩
    rw [createSnapshot_historyIndex, hhist]
    simp only [List.length_append, List.length_tail, List.length_cons, List.length_nil]
    omega

/-- C6 witness: the invariants instantiated at the initial (reachable)
state. -/
theorem history_invariants_witness :
    (initialState.history ≠ [] →
      0 ≤ initialState.historyIndex ∧
      initialState.historyIndex < (initialState.history.length : Int)) ∧
    initialState.history.length ≤ 50 ∧
    (∀ d now, canRedo (createSnapshot d now initialState) = false) ∧
    (∀ d now, (createSnapshot d now initialState).history.length ≤ 50) ∧
    (initialState.history ≠ [] →
      initialState.historyIndex < (initialState.history.length : Int) - 1 →
      ∀ d now, ((createSnapshot d now initialState).history.length : Int) =
        initialState.historyIndex + 2) ∧
    (initialState.history.length = 50 → initialState.historyIndex = 49 → ∀ d now,
      (createSnapshot d now initialState).history =
        initialState.history.tail ++
          [{ entities := initialState.entities, order := initialState.order,
             timestamp := now, description := d }] ∧
      (createSnapshot d now initialState).historyIndex = 49) :=
  history_invariants initialState Reach.init

/-- C1 counterexample: in `sDup` the playlist's tracks are
`[trackA, trackB, trackA]`; `removeTrackFromPlaylist` leaves only `[trackB]`,
so the later duplicate of `trackA` is NOT left in place as the claim states
(first-occurrence removal would have produced `[trackB, trackA]`). -/
theorem removeTrack_first_only_cex :
    (removeTrackFromPlaylist "p1" "tA" sDup).map (fun s => tracksOf s "p1") =
      .ok [some trackB] ∧
    ([some trackB] : List (Option Track)) ≠ [some trackB, some trackA] :=
  ⟨rfl, by decide⟩

/-- C1 (amended): for a playlist present in the store whose track slots are
all defined, `removeTrackFromPlaylist` removes EVERY track whose id matches,
and sets the playlist's dirty flag to `true` even when no track matches. -/
theorem removeTrack_removes_all (playlistId trackId : String) (s : PlaylistState)
    (pl : Playlist) (hpl : rget? s.entities playlistId = some pl)
    (hwf : ∀ x ∈ tracksData pl, x ≠ none) :
    removeTrackFromPlaylist playlistId trackId s = .ok
      { s with entities := rset s.entities playlistId
                 (setTracksData pl ((tracksData pl).filter (slotKeeps trackId))),
               isDirty := rset s.isDirty playlistId true } := by
  unfold removeTrackFromPlaylist
  rw [hpl]
  dsimp only
  rw [jsFilterTrackIdNe_ok hwf]
  rfl

/-- C1 witness: the amended theorem applied to the duplicate-track state. -/
theorem removeTrack_removes_all_witness :
    removeTrackFromPlaylist "p1" "tA" sDup = .ok
      { sDup with entities := rset sDup.entities "p1"
                    (setTracksData pDup ((tracksData pDup).filter (slotKeeps "tA"))),
                  isDirty := rset sDup.isDirty "p1" true } :=
  removeTrack_removes_all "p1" "tA" sDup pDup (by decide) (by decide)

/-- C2: evaluating the code at the failing input — a `rename` mutation for a
playlist id absent from `entities` makes `applyMutations` read
`entities[playlistId].attributes` of `undefined` and throw a `TypeError`;
the batch is aborted rather than the mutation being skipped. -/
theorem applyMutations_rename_missing_throws :
    applyMutations "p1" [renameMut] 0 initialState =
      (initialState, some JsErr.typeError) := by
  decide

/-- C3: evaluating the code at the failing input — `moveTrack` with
`fromIndex = 5` on a one-element track list is NOT a no-op: the first
`splice` removes nothing, and the second `splice` inserts the `undefined`
destructuring result, leaving `[undefined, trackA]` and setting the dirty
flag. -/
theorem moveTrack_out_of_range_inserts_undefined :
    tracksOf (moveTrack "p1" 5 0 sOne) "p1" = [none, some trackA] ∧
    rget? (moveTrack "p1" 5 0 sOne).isDirty "p1" = some true := by
  decide

/-- C4: `applyMutations` is a deterministic function of the starting state,
the playlist id, the batch and the clock input — two applications from the
same state yield identical results. -/
theorem applyMutations_deterministic (playlistId : String) (ms : List Mutation)
    (now : Int) (s : PlaylistState) (r₁ r₂ : PlaylistState × Option JsErr)
    (h₁ : applyMutations playlistId ms now s = r₁)
    (h₂ : applyMutations playlistId ms now s = r₂) : r₁ = r₂ := by
  rw [← h₁, ← h₂]

/-- C4 witness: determinism instantiated at a concrete run. -/
theorem applyMutations_deterministic_witness : detRun = detRun :=
  applyMutations_deterministic "p1" [] 0 initialState detRun detRun rfl rfl

/-- C7 counterexample: in `sDirtyNoCommit` (one snapshot, cursor 0, a dirty
edit on top) `undo()` is a guarded no-op and leaves the dirty flag of `p1`
set — `undo()` does NOT unconditionally clear every playlist's dirty flag. -/
theorem undo_noop_keeps_dirty_cex :
    undo sDirtyNoCommit = .ok sDirtyNoCommit ∧
    sDirtyNoCommit.isDirty = [("p1", true)] ∧
    ([("p1", true)] : RecordT Bool) ≠ [] :=
  ⟨rfl, by decide, by decide⟩

/-- C7 (amended): every structural mutation on an existing playlist sets its
dirty flag; a successful pull or revert clears it; and `undo()`/`redo()`
clear ALL dirty flags whenever they actually restore a snapshot (when
`canUndo()`/`canRedo()` holds) — a disabled undo/redo is a no-op that leaves
the dirty flags unchanged. -/
theorem dirty_propagation_amended :
    (∀ playlistId t s pl, rget? s.entities playlistId = some pl →
      rget? (addTrackToPlaylist playlistId t s).isDirty playlistId = some true) ∧
    (∀ playlistId trackId s pl s', rget? s.entities playlistId = some pl →
      removeTrackFromPlaylist playlistId trackId s = .ok s' →
      rget? s'.isDirty playlistId = some true) ∧
    (∀ playlistId f t s pl, rget? s.entities playlistId = some pl →
      rget? (moveTrack playlistId f t s).isDirty playlistId = some true) ∧
    (∀ playlistId u s pl, rget? s.entities playlistId = some pl →
      rget? (updatePlaylist playlistId u s).isDirty playlistId = some true) ∧
    (∀ playlistId p s,
      rget? (syncPlaylist playlistId (.ok p) s).1.isDirty playlistId = some false) ∧
    (∀ playlistId p s,
      rget? (revertChanges playlistId (.ok p) s).1.isDirty playlistId = some false) ∧
    (∀ s s', canUndo s = true → undo s = .ok s' → s'.isDirty = []) ∧
    (∀ s s', canRedo s = true → redo s = .ok s' → s'.isDirty = []) := by
  refine ⟨?_, ?_, ?_, ?_, ?_, ?_, ?_, ?_⟩
  · intro playlistId t s pl hpl
    unfold addTrackToPlaylist
    rw [hpl]
    exact rget?_rset _ _ _
  · intro playlistId trackId s pl s' hpl hok
    unfold removeTrackFromPlaylist at hok
    rw [hpl] at hok
    dsimp only at hok
    cases hf : jsFilterTrackIdNe trackId (tracksData pl) with
    | ok l =>
      rw [hf] at hok
      injection hok with h'
      subst h'
      exact rget?_rset _ _ _
    | error e => rw [hf] at hok; exact Except.noConfusion hok
  · intro playlistId f t s pl hpl
    unfold moveTrack
    rw [hpl]
    exact rget?_rset _ _ _
  · intro playlistId u s pl hpl
    unfold updatePlaylist
    rw [hpl]
    exact rget?_rset _ _ _
  · intro playlistId p s
    exact rget?_rset _ _ _
  · intro playlistId p s
    exact rget?_rset _ _ _
  · intro s s' hcu hok
    have hc : 0 < s.historyIndex := of_decide_eq_true hcu
    unfold undo at hok
    rw [if_neg (by omega)] at hok
    cases hjs : jsGetElem s.history (s.historyIndex - 1) with
    | none => rw [hjs] at hok; exact Except.noConfusion hok
    | some snap => rw [hjs] at hok; injection hok with h'; subst h'; rfl
  · intro s s' hcr hok
    have hc : s.historyIndex < (s.history.length : Int) - 1 := of_decide_eq_true hcr
    unfold redo at hok
    rw [if_neg (by omega)] at hok
    cases hjs : jsGetElem s.history (s.historyIndex + 1) with
    | none => rw [hjs] at hok; exact Except.noConfusion hok
    | some snap => rw [hjs] at hok; injection hok with h'; subst h'; rfl

/-- C7 witness: the amended dirty-propagation theorem applied to concrete
states. -/
theorem dirty_propagation_amended_witness :
    rget? (addTrackToPlaylist "p1" trackB sOne).isDirty "p1" = some true ∧
    rget? (moveTrack "p1" 0 0 sOne).isDirty "p1" = some true ∧
    rget? (updatePlaylist "p1" {} sOne).isDirty "p1" = some true ∧
    sUndoTwo.isDirty = [] := by
  refine ⟨?_, ?_, ?_, ?_⟩
  · exact dirty_propagation_amended.1 "p1" trackB sOne pOne (by decide)
  · exact dirty_propagation_amended.2.2.1 "p1" 0 0 sOne pOne (by decide)
  · exact dirty_propagation_amended.2.2.2.1 "p1" {} sOne pOne (by decide)
  · exact dirty_propagation_amended.2.2.2.2.2.2.1 sTwoCommits sUndoTwo (by decide) rfl

/-- C10: `undo()` and `redo()` never change the selected playlist —
snapshots carry only entities and order — and in particular the selection
cleared by `deletePlaylist` stays cleared after undoing the delete. -/
theorem undo_redo_preserve_selected (s s₁ s₂ : PlaylistState) (id : String) (now : Int) :
    (undo s = .ok s₁ → s₁.selectedId = s.selectedId) ∧
    (redo s = .ok s₂ → s₂.selectedId = s.selectedId) ∧
    (undo (deletePlaylist id now s) = .ok s₁ →
      s₁.selectedId = (deletePlaylist id now s).selectedId ∧
      (s.selectedId = some id → s₁.selectedId = none)) := by
  have hu : ∀ t t₁ : PlaylistState, undo t = .ok t₁ → t₁.selectedId = t.selectedId := by
    intro t t₁ hok
    unfold undo at hok
    split at hok
    · injection hok with h'; subst h'; rfl
    · cases hjs : jsGetElem t.history (t.historyIndex - 1) with
      | none => rw [hjs] at hok; exact Except.noConfusion hok
      | some snap => rw [hjs] at hok; injection hok with h'; subst h'; rfl
  have hr : ∀ t t₂ : PlaylistState, redo t = .ok t₂ → t₂.selectedId = t.selectedId := by
    intro t t₂ hok
    unfold redo at hok
    split at hok
    · injection hok with h'; subst h'; rfl
    · cases hjs : jsGetElem t.history (t.historyIndex + 1) with
      | none => rw [hjs] at hok; exact Except.noConfusion hok
      | some snap => rw [hjs] at hok; injection hok with h'; subst h'; rfl
  refine ⟨hu s s₁, hr s s₂, fun hok => ⟨hu _ _ hok, fun hsel => ?_⟩⟩
  rw [hu _ _ hok]
  unfold deletePlaylist
  rw [createSnapshot_selectedId]
  dsimp only
  rw [if_pos hsel]

/-- C10 witness: undoing the delete of the selected playlist leaves the
selection cleared. -/
theorem undo_redo_preserve_selected_witness : sAfterDeleteUndo.selectedId = none :=
  ((undo_redo_preserve_selected sSelected sAfterDeleteUndo sAfterDeleteUndo "p1" 1).2.2
    rfl).2 (by decide)

/-- C8 counterexample: on a failing remote get, `syncPlaylist` leaves the
state untouched but the caller-visible outcome is `.ok ()` — the error is
caught and logged inside the action, not surfaced as a rejected result. -/
theorem sync_failure_not_rejected_cex :
    syncPlaylist "p1" (.error (RemoteErr.failure "network")) sOne = (sOne, .ok ()) ∧
    (syncPlaylist "p1" (.error (RemoteErr.failure "network")) sOne).2 ≠
      .error (RemoteErr.failure "network") :=
  ⟨rfl, fun h => Except.noConfusion h⟩

/-- C8 (amended): when the remote get fails, `pull`/`revert` leave the whole
local store state exactly as it was, but the failure is swallowed (caught and
logged): the call resolves with `.ok ()` instead of rejecting. -/
theorem sync_failure_leaves_state_and_resolves (id : String) (e : RemoteErr)
    (s : PlaylistState) :
    syncPlaylist id (.error e) s = (s, .ok ()) ∧
    revertChanges id (.error e) s = (s, .ok ()) :=
  ⟨rfl, rfl⟩

/-- C9 counterexample: inserting the same playlist twice duplicates its id in
`order` — the append is unconditional in the code. -/
theorem addPlaylist_duplicate_order_cex :
    (addPlaylist pOne 1 (addPlaylist pOne 0 initialState)).order = ["p1", "p1"] ∧
    ¬ ((addPlaylist pOne 1 (addPlaylist pOne 0 initialState)).order.count "p1" ≤ 1) := by
  decide

/-- C9 (amended): `addPlaylist` adds the playlist to `entities`, sets its
dirty flag to `false`, and appends its id to `order` UNCONDITIONALLY — a
second insert of the same id produces a duplicate entry in `order`. -/
theorem addPlaylist_appends_unconditionally (p : Playlist) (now : Int)
    (s : PlaylistState) :
    (addPlaylist p now s).order = s.order ++ [p.id] ∧
    rget? (addPlaylist p now s).entities p.id = some p ∧
    rget? (addPlaylist p now s).isDirty p.id = some false :=
  ⟨rfl, rget?_rset _ _ _, rget?_rset _ _ _⟩

end PlaylistTidy
